import Mathlib

/-!
Verification development for `src/scope.rs` of the mlua repository: the
`Scope` type that creates Lua callbacks and userdata which expire on scope
drop.  The definitions below are a shallow embedding of that file: the
per-call runtime checks of the non-static userdata shims (`wrap_method`,
`check_ud_type`), the `RefCell` borrow discipline guarding mutable
closures, the construction step sequence of `create_nonstatic_userdata`,
the two-pass teardown of `impl Drop for Scope`, and the async adapters.
-/

namespace Mlua

/-- Error kinds from `crate::error::Error` that `scope.rs` surfaces.
`FromLuaConversionError` stands for the marshalling-error kind produced by
the `FromLuaMulti` collaborators. -/
inductive Error
  | RecursiveMutCallback
  | UserDataTypeMismatch
  | UserDataBorrowError
  | UserDataBorrowMutError
  | MetaMethodTypeError (method : String) (type_name : String) (message : Option String)
  | FromLuaConversionError (message : String)
deriving DecidableEq

/-- Lua values, as far as the code in `scope.rs` inspects them.  Tables,
functions and userdata are identified by the address of their heap object
(the identity `lua_topointer` / `get_userdata` observes); floating point
numbers are opaque here since no code under verification computes with
them. -/
inductive Value
  | nil
  | boolean (b : Bool)
  | integer (n : Int)
  | number (id : Nat)
  | string (s : String)
  | table (id : Nat)
  | function (id : Nat)
  | userdata (addr : Nat)
deriving DecidableEq

/-- `Value::type_name` from the userdata module, for the value kinds
modelled here. -/
def Value.type_name : Value → String
  | Value.nil => "nil"
  | Value.boolean _ => "boolean"
  | Value.integer _ => "integer"
  | Value.number _ => "number"
  | Value.string _ => "string"
  | Value.table _ => "table"
  | Value.function _ => "function"
  | Value.userdata _ => "userdata"

/-- Meta method keys (`crate::userdata::MetaMethod`), a representative
subset plus the custom-name escape hatch. -/
inductive MetaMethod
  | Add
  | Index
  | NewIndex
  | Call
  | ToString
  | Custom (s : String)
deriving DecidableEq

/-- `MetaMethod::name`, the Lua-side key string (also what
`MetaMethod`'s `Display` implementation prints). -/
def MetaMethod.name : MetaMethod → String
  | MetaMethod.Add => "__add"
  | MetaMethod.Index => "__index"
  | MetaMethod.NewIndex => "__newindex"
  | MetaMethod.Call => "__call"
  | MetaMethod.ToString => "__tostring"
  | MetaMethod.Custom s => s

/-- The dynamic state of a `std::cell::RefCell` borrow flag: free, borrowed
by `n` readers, or mutably borrowed by the single writer. -/
inductive BorrowState
  | free
  | reading (n : Nat)
  | writing
deriving DecidableEq

/-- `RefCell::try_borrow`: succeeds unless a mutable borrow is live. -/
def try_borrow : BorrowState → Option BorrowState
  | BorrowState.free => some (BorrowState.reading 1)
  | BorrowState.reading n => some (BorrowState.reading (n + 1))
  | BorrowState.writing => none

/-- `RefCell::try_borrow_mut`: succeeds only when no borrow is live. -/
def try_borrow_mut : BorrowState → Option BorrowState
  | BorrowState.free => some BorrowState.writing
  | _ => none

/-- `check_ud_type` from `Scope::create_nonstatic_userdata::wrap_method`
(src/src/scope.rs lines 263-275): the first argument must be a userdata
value whose stored payload address (`get_userdata`) equals the `data_ptr`
captured when the method closure was built; anything else is
`Error::UserDataTypeMismatch`. -/
def check_ud_type (data_ptr : Nat) (value : Option Value) : Except Error Unit :=
  match value with
  | some (Value.userdata addr) =>
      if addr = data_ptr then Except.ok () else Except.error Error.UserDataTypeMismatch
  | _ => Except.error Error.UserDataTypeMismatch

/-- The closure built by `wrap_method` for `NonStaticMethod::Method`
(src/src/scope.rs lines 278-285): pop the first argument and check it
against the captured payload address, then immutably borrow the shared
capsule (`Rc<RefCell<T>>`) — failing with `Error::UserDataBorrowError` —
and run the method body on the remaining arguments.  `data` and `cap` are
the capsule's contents and its borrow flag. -/
def methodCall {T β : Type} (data_ptr : Nat) (data : T) (cap : BorrowState)
    (method : T → List Value → Except Error β) (args : List Value) : Except Error β :=
  match check_ud_type data_ptr args.head? with
  | Except.error e => Except.error e
  | Except.ok _ =>
    match try_borrow cap with
    | none => Except.error Error.UserDataBorrowError
    | some _ => method data args.tail

/-- The closure built by `wrap_method` for `NonStaticMethod::MethodMut`
(src/src/scope.rs lines 286-299): after the self check, mutably borrow the
`RefCell` holding the method itself (failure is
`Error::RecursiveMutCallback`), then mutably borrow the shared capsule
(failure is `Error::UserDataBorrowMutError`), then run the body. -/
def methodMutCall {T β : Type} (data_ptr : Nat) (methodCell : BorrowState) (data : T)
    (cap : BorrowState) (method : T → List Value → Except Error β) (args : List Value) :
    Except Error β :=
  match check_ud_type data_ptr args.head? with
  | Except.error e => Except.error e
  | Except.ok _ =>
    match try_borrow_mut methodCell with
    | none => Except.error Error.RecursiveMutCallback
    | some _ =>
      match try_borrow_mut cap with
      | none => Except.error Error.UserDataBorrowMutError
      | some _ => method data args.tail

/-- The wrapper shared by `Scope::create_function_mut` (src/src/scope.rs
lines 102-107) and the `NonStaticMethod::FunctionMut` branch of
`wrap_method` (lines 301-311): the mutable closure sits in a `RefCell`, and
each invocation first acquires its single-writer borrow, failing with
`Error::RecursiveMutCallback` when the closure is already executing. -/
def function_mut_call {β : Type} (funcCell : BorrowState)
    (func : List Value → Except Error β) (args : List Value) : Except Error β :=
  match try_borrow_mut funcCell with
  | none => Except.error Error.RecursiveMutCallback
  | some _ => func args

/-- Observable events of an invocation of a scoped mutable closure:
the guarded body is entered, a re-entrant attempt is rejected by the
`RefCell` guard, or the body returns and releases the borrow. -/
inductive CallEvent
  | enter
  | reentryRejected
  | exit
deriving DecidableEq

/-- A script-side view of the body of a mutable closure: it either finishes
with a value, or re-invokes the same scoped closure (directly or through
script-side recursion) and continues with the result of that call. -/
inductive BodyOp
  | finish (v : Nat)
  | reinvoke (cont : Except Error Nat → BodyOp)

/-- Execution of the body `b` of the scoped mutable closure whose full body
is `P`, with `cell` the current state of the closure's `RefCell` guard (the
borrow acquired by the invocation that entered `b` is part of `cell`).
A `reinvoke` step performs the guard acquisition of `function_mut_call`:
if `try_borrow_mut` fails the nested call yields
`Error::RecursiveMutCallback` without entering the body; otherwise the
body `P` runs under the fresh writer borrow.  `fuel` bounds the recursion
depth; `none` means fuel ran out. -/
def runScopedBody (P : BodyOp) : Nat → BorrowState → BodyOp →
    Option (List CallEvent × Except Error Nat)
  | _, _, BodyOp.finish v => some ([], Except.ok v)
  | 0, _, BodyOp.reinvoke _ => none
  | fuel + 1, cell, BodyOp.reinvoke cont =>
    match try_borrow_mut cell with
    | none =>
      match runScopedBody P fuel cell (cont (Except.error Error.RecursiveMutCallback)) with
      | none => none
      | some (evs, r) => some (CallEvent.reentryRejected :: evs, r)
    | some held =>
      match runScopedBody P fuel held P with
      | none => none
      | some (evs1, r1) =>
        match runScopedBody P fuel cell (cont r1) with
        | none => none
        | some (evs2, r2) =>
          some ((CallEvent.enter :: (evs1 ++ [CallEvent.exit])) ++ evs2, r2)

/-- One invocation of a scoped mutable closure with body `P` and guard
state `cell`: acquire the `RefCell` writer borrow (re-entrant invocations
find it held and fail with `Error::RecursiveMutCallback`), run the body,
release the borrow on return. -/
def invokeScopedMut (P : BodyOp) (fuel : Nat) (cell : BorrowState) :
    Option (List CallEvent × Except Error Nat) :=
  match try_borrow_mut cell with
  | none => some ([CallEvent.reentryRejected], Except.error Error.RecursiveMutCallback)
  | some held =>
    match runScopedBody P fuel held P with
    | none => none
    | some (evs, r) => some (CallEvent.enter :: (evs ++ [CallEvent.exit]), r)

/-- Teardown events of `impl Drop for Scope`: a destructor invalidates its
entry's runtime-side shell, a collected payload is dropped, or dropping a
payload panics (the panic then propagates out of the `drop`). -/
inductive TEvent
  | invalidate (shell : Nat)
  | dropPayload (payload : Nat)
  | panicDuringDrop (payload : Nat)
deriving DecidableEq

/-- One entry of the destructor registry (`Scope::destructors`): the shell
it invalidates and the identities of the erased payload boxes its
`DestructorCallback` returns. -/
structure DestructorEntry where
  shell : Nat
  payloads : List Nat
deriving DecidableEq

/-- Pass 1 of `impl Drop for Scope` (src/src/scope.rs lines 558-563): drain
the registry in insertion order, invoking each destructor — which
invalidates that entry's shell — and collect the erased payloads
(`drain(..).flat_map(|(r, dest)| dest(r)).collect()`). -/
def pass1 : List DestructorEntry → List TEvent × List Nat
  | [] => ([], [])
  | e :: rest =>
    let r := pass1 rest
    (TEvent.invalidate e.shell :: r.1, e.payloads ++ r.2)

/-- Pass 2 of `impl Drop for Scope` (`drop(to_drop)`, line 565): drop the
collected payloads in order; if a payload's destructor panics the pass
stops there and the panic propagates. -/
def pass2 (panics : Nat → Bool) : List Nat → List TEvent
  | [] => []
  | p :: rest =>
    if panics p then [TEvent.panicDuringDrop p]
    else TEvent.dropPayload p :: pass2 panics rest

/-- The full event sequence of `impl Drop for Scope`: pass 1 over every
entry, then pass 2 over the collected payloads. -/
def scope_drop (panics : Nat → Bool) (entries : List DestructorEntry) : List TEvent :=
  (pass1 entries).1 ++ pass2 panics (pass1 entries).2

/-- Steps of the `unsafe` block of `Scope::create_nonstatic_userdata`
(src/src/scope.rs lines 320-398), in the order the code performs them. -/
inductive BuildStep
  | allocStorage
  | pushMetatable
  | setMetaMethod (k : String)
  | setMetaField (k : String)
  | buildFieldGetters
  | buildFieldSetters
  | buildMethods
  | initMetatable
  | readMetatableId
  | writePayload
  | attachMetatable
  | registerMetatable
deriving DecidableEq

/-- The registrations collected from `T::add_fields` and `T::add_methods`
that drive `create_nonstatic_userdata`'s build. -/
structure UserDataReg where
  metaMethods : List String
  metaFields : List String
  fieldGetters : List String
  fieldSetters : List String
  methods : List String
deriving DecidableEq

/-- The step sequence of the `unsafe` block of
`Scope::create_nonstatic_userdata`: allocate the raw userdata storage
(`lua_newuserdata`), push the metatable and fill it with meta methods then
meta fields, build each auxiliary lookup table only when it is non-empty,
run `init_userdata_metatable`, read the metatable identity
(`lua_topointer`), write the payload into the reserved storage
(`ptr::write`), attach the metatable (`lua_setmetatable`), and register
the metatable identity (`register_userdata_metatable`). -/
def nonstatic_build_steps (r : UserDataReg) : List BuildStep :=
  [BuildStep.allocStorage, BuildStep.pushMetatable]
    ++ r.metaMethods.map BuildStep.setMetaMethod
    ++ r.metaFields.map BuildStep.setMetaField
    ++ (if 0 < r.fieldGetters.length then [BuildStep.buildFieldGetters] else [])
    ++ (if 0 < r.fieldSetters.length then [BuildStep.buildFieldSetters] else [])
    ++ (if 0 < r.methods.length then [BuildStep.buildMethods] else [])
    ++ [BuildStep.initMetatable, BuildStep.readMetatableId, BuildStep.writePayload,
        BuildStep.attachMetatable, BuildStep.registerMetatable]

/-- `allBefore a b l` holds when every occurrence of `a` in `l` precedes
every occurrence of `b`: scanning `l`, once `b` is found no `a` may follow. -/
def allBefore {α : Type} [DecidableEq α] (a b : α) : List α → Bool
  | [] => true
  | x :: rest => if x = b then decide (a ∉ rest) else allBefore a b rest

/-- One registration call a `UserData::add_methods` implementation can make
on `NonStaticUserDataMethods` (src/src/scope.rs lines 590-739). -/
inductive MethodRegOp
  | addMethod (name : String)
  | addMethodMut (name : String)
  | addAsyncMethod (name : String)
  | addFunction (name : String)
  | addFunctionMut (name : String)
  | addAsyncFunction (name : String)
  | addMetaMethod (meta : MetaMethod)
  | addMetaMethodMut (meta : MetaMethod)
  | addMetaFunction (meta : MetaMethod)
  | addMetaFunctionMut (meta : MetaMethod)
deriving DecidableEq

/-- Whether a registration call is one of the asynchronous ones. -/
def MethodRegOp.isAsync : MethodRegOp → Bool
  | MethodRegOp.addAsyncMethod _ => true
  | MethodRegOp.addAsyncFunction _ => true
  | _ => false

/-- The two name lists `NonStaticUserDataMethods` accumulates. -/
structure MethodsState where
  methods : List String
  metaMethods : List MetaMethod
deriving DecidableEq

/-- Effect of one registration call on `NonStaticUserDataMethods`:
`add_method`, `add_method_mut`, `add_function` and `add_function_mut` push
onto `methods`; the four meta variants push onto `meta_methods`;
`add_async_method` and `add_async_function` hit `mlua_panic!`
(src/src/scope.rs lines 633 and 677), modelled as `none`. -/
def applyMethodRegOp (st : MethodsState) : MethodRegOp → Option MethodsState
  | MethodRegOp.addMethod n => some { st with methods := st.methods ++ [n] }
  | MethodRegOp.addMethodMut n => some { st with methods := st.methods ++ [n] }
  | MethodRegOp.addAsyncMethod _ => none
  | MethodRegOp.addFunction n => some { st with methods := st.methods ++ [n] }
  | MethodRegOp.addFunctionMut n => some { st with methods := st.methods ++ [n] }
  | MethodRegOp.addAsyncFunction _ => none
  | MethodRegOp.addMetaMethod m => some { st with metaMethods := st.metaMethods ++ [m] }
  | MethodRegOp.addMetaMethodMut m => some { st with metaMethods := st.metaMethods ++ [m] }
  | MethodRegOp.addMetaFunction m => some { st with metaMethods := st.metaMethods ++ [m] }
  | MethodRegOp.addMetaFunctionMut m => some { st with metaMethods := st.metaMethods ++ [m] }

/-- Running `T::add_methods` against `NonStaticUserDataMethods`: the
registration calls run in order; a panic aborts the whole run. -/
def runMethodReg (st : MethodsState) : List MethodRegOp → Option MethodsState
  | [] => some st
  | op :: ops =>
    match applyMethodRegOp st op with
    | none => none
    | some st2 => runMethodReg st2 ops

/-- One registration call a `UserData::add_fields` implementation can make
on `NonStaticUserDataFields` (src/src/scope.rs lines 758-842). -/
inductive FieldRegOp
  | addFieldMethodGet (name : String)
  | addFieldMethodSet (name : String)
  | addFieldFunctionGet (name : String)
  | addFieldFunctionSet (name : String)
  | addMetaFieldWith (meta : MetaMethod)
deriving DecidableEq

/-- The three lists `NonStaticUserDataFields` accumulates. -/
structure FieldsState where
  fieldGetters : List String
  fieldSetters : List String
  metaFields : List MetaMethod
deriving DecidableEq

/-- Effect of one registration call on `NonStaticUserDataFields`; none of
these can panic. -/
def applyFieldRegOp (st : FieldsState) : FieldRegOp → FieldsState
  | FieldRegOp.addFieldMethodGet n => { st with fieldGetters := st.fieldGetters ++ [n] }
  | FieldRegOp.addFieldMethodSet n => { st with fieldSetters := st.fieldSetters ++ [n] }
  | FieldRegOp.addFieldFunctionGet n => { st with fieldGetters := st.fieldGetters ++ [n] }
  | FieldRegOp.addFieldFunctionSet n => { st with fieldSetters := st.fieldSetters ++ [n] }
  | FieldRegOp.addMetaFieldWith m => { st with metaFields := st.metaFields ++ [m] }

/-- Running `T::add_fields` against `NonStaticUserDataFields`. -/
def runFieldReg (st : FieldsState) : List FieldRegOp → FieldsState
  | [] => st
  | op :: ops => runFieldReg (applyFieldRegOp st op) ops

/-- `Scope::create_nonstatic_userdata` for a userdata type whose
`add_fields` and `add_methods` implementations make the given registration
calls (src/src/scope.rs lines 315-318 followed by the `unsafe` block):
run the registrations, then perform the build sequence.  `none` models the
`mlua_panic!` escaping the call. -/
def create_nonstatic_userdata (fieldOps : List FieldRegOp) (methodOps : List MethodRegOp) :
    Option (List BuildStep) :=
  let fs := runFieldReg ⟨[], [], []⟩ fieldOps
  match runMethodReg ⟨[], []⟩ methodOps with
  | none => none
  | some ms =>
      some (nonstatic_build_steps
        ⟨ms.metaMethods.map MetaMethod.name, fs.metaFields.map MetaMethod.name,
         fs.fieldGetters, fs.fieldSetters, ms.methods⟩)

/-- A Lua-side asynchronous computation as the polling protocol sees it:
either already resolved to a result, or pending with a continuation for
the next poll. -/
inductive LFuture (α : Type)
  | ready (result : Except Error α)
  | pending (next : Unit → LFuture α)

/-- `TryFutureExt::and_then` composed with `future::ready`, as used in
`Scope::create_async_function`: map the success value of a future through
a fallible function. -/
def LFuture.andThen {α β : Type} : LFuture α → (α → Except Error β) → LFuture β
  | LFuture.ready (Except.error e), _ => LFuture.ready (Except.error e)
  | LFuture.ready (Except.ok a), f => LFuture.ready (f a)
  | LFuture.pending k, f => LFuture.pending fun u => LFuture.andThen (k u) f

/-- One poll of a future: `some` with the result when it is resolved,
`none` when it is still pending. -/
def LFuture.poll {α : Type} : LFuture α → Option (Except Error α)
  | LFuture.ready r => some r
  | LFuture.pending _ => none

/-- The async callback built by `Scope::create_async_function`
(src/src/scope.rs lines 132-140): marshal the arguments with
`A::from_lua_multi`; on failure return `future::err(e)` — an already
resolved failed future — and on success run the user's async function and
marshal its result through `and_then`. -/
def create_async_function_call {A R : Type}
    (from_lua_multi : List Value → Except Error A)
    (func : A → LFuture R)
    (to_lua_multi : R → Except Error (List Value))
    (args : List Value) : LFuture (List Value) :=
  match from_lua_multi args with
  | Except.error e => LFuture.ready (Except.error e)
  | Except.ok a => (func a).andThen to_lua_multi

/-- Type-erased payloads detached by the async callback destructor:
the boxed `AsyncCallback`, a `Lua` runtime back-reference, or the boxed
in-flight future (`LocalBoxFuture<Result<MultiValue>>`). -/
inductive Payload
  | asyncCallback (id : Nat)
  | luaRef (id : Nat)
  | pollFuture (id : Nat)
deriving DecidableEq

/-- The two upvalues of the `poll` closure that the Lua-side async
machinery stores in the callback's environment table once a poll starts. -/
structure PollState where
  future : Option Nat
  luaRef : Option Nat
deriving DecidableEq

/-- The runtime-side shell of a scoped async callback at teardown time, as
the destructor of `Scope::create_async_callback` probes it: the two
upvalues of the `get_poll` closure (the boxed `AsyncCallback` and the
`Lua` back-reference), and the `poll` slot of the environment table.
Modelled from the spec for the part outside `scope.rs`: the `poll` slot
holds a function — here `some` — exactly when a poll was ever started. -/
structure AsyncShell where
  starterCb : Option Nat
  starterLua : Option Nat
  poll : Option PollState
deriving DecidableEq

/-- The destructor registered by `Scope::create_async_callback`
(src/src/scope.rs lines 492-542): take both upvalues of the `get_poll`
closure, overwriting each with nil; then `lua_rawget` the `poll` key and,
only if it holds a function, take that closure's two upvalues as well,
also overwriting them with nil.  Returns the detached shell and the
collected payloads in order. -/
def async_callback_destructor (sh : AsyncShell) : AsyncShell × List Payload :=
  let data := (sh.starterCb.map Payload.asyncCallback).toList
    ++ (sh.starterLua.map Payload.luaRef).toList
  match sh.poll with
  | some ps =>
      (⟨none, none, some ⟨none, none⟩⟩,
        data ++ (ps.future.map Payload.pollFuture).toList
          ++ (ps.luaRef.map Payload.luaRef).toList)
  | none => (⟨none, none, none⟩, data)

/-- The closure stored by `NonStaticUserDataFields::add_meta_field_with`
(src/src/scope.rs lines 822-841), applied to the value already produced by
the user function and `to_lua`: under the `__index` or `__newindex` key the
value must be nil, a table or a function, otherwise the closure fails with
`Error::MetaMethodTypeError`; under any other key the value passes through. -/
def add_meta_field_with_eval (meta : MetaMethod) (produced : Except Error Value) :
    Except Error Value :=
  match produced with
  | Except.error e => Except.error e
  | Except.ok value =>
    if meta = MetaMethod.Index ∨ meta = MetaMethod.NewIndex then
      match value with
      | Value.nil => Except.ok value
      | Value.table _ => Except.ok value
      | Value.function _ => Except.ok value
      | _ => Except.error (Error.MetaMethodTypeError meta.name value.type_name
              (some "expected nil, table or function"))
    else Except.ok value

/-- Whether a value is admissible as an `__index` / `__newindex` meta
field: nil, a table, or a function (the spec's wording). -/
def Value.indexAllowed : Value → Bool
  | Value.nil => true
  | Value.table _ => true
  | Value.function _ => true
  | _ => false

/-- C4: for two distinct non-static userdata objects — distinct payload
addresses `p1 ≠ p2` — a method (plain or mutable) built for the object at
`p1` invoked with the userdata at `p2` as `self` fails with
`Error::UserDataTypeMismatch` regardless of borrow state, while invoking it
with its own userdata as `self` passes the check and runs the body; the
check compares the passed userdata's payload address against the address
captured at construction. -/
theorem nonstatic_method_self_check {T β : Type} (p1 p2 : Nat) (h : p1 ≠ p2) (x : T)
    (bs mcell : BorrowState) (body bodyMut : T → List Value → Except Error β)
    (rest : List Value) :
    methodCall p1 x bs body (Value.userdata p2 :: rest)
        = Except.error Error.UserDataTypeMismatch
    ∧ methodMutCall p1 mcell x bs bodyMut (Value.userdata p2 :: rest)
        = Except.error Error.UserDataTypeMismatch
    ∧ methodCall p1 x BorrowState.free body (Value.userdata p1 :: rest) = body x rest := by
  have h2 : p2 ≠ p1 := Ne.symm h
  refine ⟨?_, ?_, ?_⟩ <;>
    simp [methodCall, methodMutCall, check_ud_type, try_borrow, h2]

/-- Witness for C4 at concrete objects with payload addresses 0 and 1. -/
theorem nonstatic_method_self_check_witness :
    methodCall 0 (7 : Nat) BorrowState.free (fun x _ => Except.ok x) [Value.userdata 1]
        = Except.error Error.UserDataTypeMismatch
    ∧ methodCall 0 (7 : Nat) BorrowState.free (fun x _ => Except.ok x) [Value.userdata 0]
        = Except.ok 7 :=
  ⟨(nonstatic_method_self_check 0 1 (by decide) 7 BorrowState.free BorrowState.free
      (fun x _ => Except.ok x) (fun x _ => Except.ok x) []).1,
   (nonstatic_method_self_check 0 1 (by decide) 7 BorrowState.free BorrowState.free
      (fun x _ => Except.ok x) (fun x _ => Except.ok x) []).2.2⟩

/-- C6: incompatible borrows of the shared capsule of a non-static userdata
are runtime errors: a `&self` method fails with `Error::UserDataBorrowError`
when the capsule is mutably borrowed, and a `&mut self` method fails with
`Error::UserDataBorrowMutError` when any borrow of the capsule is live. -/
theorem nonstatic_borrow_conflicts {T β : Type} (p : Nat) (x : T) (bs : BorrowState)
    (body bodyMut : T → List Value → Except Error β) (rest : List Value) :
    methodCall p x BorrowState.writing body (Value.userdata p :: rest)
        = Except.error Error.UserDataBorrowError
    ∧ (bs ≠ BorrowState.free →
        methodMutCall p BorrowState.free x bs bodyMut (Value.userdata p :: rest)
          = Except.error Error.UserDataBorrowMutError) := by
  constructor
  · simp [methodCall, check_ud_type, try_borrow]
  · intro hbs
    cases bs with
    | free => exact absurd rfl hbs
    | reading n => simp [methodMutCall, check_ud_type, try_borrow_mut]
    | writing => simp [methodMutCall, check_ud_type, try_borrow_mut]

/-- Witness for C6 at a concrete capsule: mutably borrowed for the `&self`
method, read-borrowed for the `&mut self` method. -/
theorem nonstatic_borrow_conflicts_witness :
    methodCall 3 (5 : Nat) BorrowState.writing (fun x _ => Except.ok x) [Value.userdata 3]
        = Except.error Error.UserDataBorrowError
    ∧ methodMutCall 3 BorrowState.free (5 : Nat) (BorrowState.reading 1)
        (fun x _ => Except.ok x) [Value.userdata 3]
        = Except.error Error.UserDataBorrowMutError :=
  ⟨(nonstatic_borrow_conflicts 3 5 (BorrowState.reading 1)
      (fun x _ => Except.ok x) (fun x _ => Except.ok x) []).1,
   (nonstatic_borrow_conflicts 3 5 (BorrowState.reading 1)
      (fun x _ => Except.ok x) (fun x _ => Except.ok x) []).2 (by decide)⟩

/-- C7: when argument marshalling fails in a callback created by
`Scope::create_async_function`, the call still returns a future — one
already resolved to that failure — so the error surfaces through the same
polling protocol as a successful result, rather than synchronously. -/
theorem async_marshal_failure_is_resolved_future {A R : Type}
    (from_lua_multi : List Value → Except Error A) (func : A → LFuture R)
    (to_lua_multi : R → Except Error (List Value)) (args : List Value) (e : Error)
    (h : from_lua_multi args = Except.error e) :
    create_async_function_call from_lua_multi func to_lua_multi args
        = LFuture.ready (Except.error e)
    ∧ (create_async_function_call from_lua_multi func to_lua_multi args).poll
        = some (Except.error e) := by
  simp [create_async_function_call, h, LFuture.poll]

/-- Witness for C7 with a concrete failing marshaller. -/
theorem async_marshal_failure_is_resolved_future_witness :
    create_async_function_call
        (fun _ => Except.error (Error.FromLuaConversionError "bad argument"))
        (fun _ : Unit => LFuture.ready (Except.ok ()))
        (fun _ => Except.ok []) []
      = LFuture.ready (Except.error (Error.FromLuaConversionError "bad argument")) :=
  (async_marshal_failure_is_resolved_future
    (fun _ => Except.error (Error.FromLuaConversionError "bad argument"))
    (fun _ : Unit => LFuture.ready (Except.ok ()))
    (fun _ => Except.ok []) [] (Error.FromLuaConversionError "bad argument") rfl).1

/-- C9: a meta field registered with `add_meta_field_with` under `__index`
or `__newindex` whose produced value is not nil, a table or a function
fails with `Error::MetaMethodTypeError` naming the meta method and the
value's type; an admissible value, or any value under another meta key,
passes through unchanged. -/
theorem add_meta_field_index_check (meta : MetaMethod) (v : Value) :
    ((meta = MetaMethod.Index ∨ meta = MetaMethod.NewIndex) →
      (v.indexAllowed = false →
        add_meta_field_with_eval meta (Except.ok v)
          = Except.error (Error.MetaMethodTypeError meta.name v.type_name
              (some "expected nil, table or function")))
      ∧ (v.indexAllowed = true → add_meta_field_with_eval meta (Except.ok v) = Except.ok v))
    ∧ ((meta ≠ MetaMethod.Index ∧ meta ≠ MetaMethod.NewIndex) →
        add_meta_field_with_eval meta (Except.ok v) = Except.ok v) := by
  constructor
  · intro hm
    constructor
    · intro hv
      cases v <;> simp_all [add_meta_field_with_eval, Value.indexAllowed]
    · intro hv
      cases v <;> simp_all [add_meta_field_with_eval, Value.indexAllowed]
  · intro hm
    simp [add_meta_field_with_eval, hm.1, hm.2]

/-- Witness for C9: an integer under `__index` is rejected, the same value
under `__add` passes through. -/
theorem add_meta_field_index_check_witness :
    add_meta_field_with_eval MetaMethod.Index (Except.ok (Value.integer 5))
        = Except.error (Error.MetaMethodTypeError "__index" "integer"
            (some "expected nil, table or function"))
    ∧ add_meta_field_with_eval MetaMethod.Add (Except.ok (Value.integer 5))
        = Except.ok (Value.integer 5) :=
  ⟨((add_meta_field_index_check MetaMethod.Index (Value.integer 5)).1 (Or.inl rfl)).1 rfl,
   (add_meta_field_index_check MetaMethod.Add (Value.integer 5)).2 (by decide)⟩

/-- C8: the async callback's teardown always detaches the starter's two
hidden payloads (the boxed `AsyncCallback` and the `Lua` back-reference)
and nils their slots; and it detaches the poller's two hidden payloads
(the in-flight future and the second `Lua` back-reference) exactly when
the `poll` slot of the shell holds a function at teardown time, nil-ing
those upvalues too. -/
theorem async_destructor_detaches (cb lr : Nat) (poll : Option PollState) :
    (async_callback_destructor ⟨some cb, some lr, poll⟩).1.starterCb = none
    ∧ (async_callback_destructor ⟨some cb, some lr, poll⟩).1.starterLua = none
    ∧ Payload.asyncCallback cb ∈ (async_callback_destructor ⟨some cb, some lr, poll⟩).2
    ∧ Payload.luaRef lr ∈ (async_callback_destructor ⟨some cb, some lr, poll⟩).2
    ∧ (poll = none →
        (async_callback_destructor ⟨some cb, some lr, poll⟩).2
          = [Payload.asyncCallback cb, Payload.luaRef lr])
    ∧ (∀ f r, poll = some ⟨some f, some r⟩ →
        (async_callback_destructor ⟨some cb, some lr, poll⟩).2
            = [Payload.asyncCallback cb, Payload.luaRef lr,
               Payload.pollFuture f, Payload.luaRef r]
        ∧ (async_callback_destructor ⟨some cb, some lr, poll⟩).1.poll
            = some ⟨none, none⟩) := by
  cases poll with
  | none => simp [async_callback_destructor]
  | some ps =>
    refine ⟨?_, ?_, ?_, ?_, ?_, ?_⟩ <;>
      simp [async_callback_destructor]
    intro f r hf
    subst hf
    simp

/-- Witness for C8 with a started poll holding future 30 and back-reference
40. -/
theorem async_destructor_detaches_witness :
    (async_callback_destructor ⟨some 10, some 20, some ⟨some 30, some 40⟩⟩).2
        = [Payload.asyncCallback 10, Payload.luaRef 20,
           Payload.pollFuture 30, Payload.luaRef 40]
    ∧ (async_callback_destructor ⟨some 10, some 20, some ⟨some 30, some 40⟩⟩).1.starterCb
        = none :=
  ⟨((async_destructor_detaches 10 20 (some ⟨some 30, some 40⟩)).2.2.2.2.2 30 40 rfl).1,
   (async_destructor_detaches 10 20 (some ⟨some 30, some 40⟩)).1⟩

/-- Any method-registration run containing an asynchronous registration
aborts with the `mlua_panic!` of `add_async_method` / `add_async_function`. -/
theorem runMethodReg_async_none (ops : List MethodRegOp) :
    ∀ st : MethodsState, (∃ op ∈ ops, op.isAsync = true) → runMethodReg st ops = none := by
  induction ops with
  | nil => intro st h; exact absurd h (by simp)
  | cons op ops ih =>
    intro st h
    rcases h with ⟨op2, hmem, hasync⟩
    rcases List.mem_cons.mp hmem with heq | hmem2
    · subst heq
      cases op2 <;> simp_all [MethodRegOp.isAsync, runMethodReg, applyMethodRegOp]
    · cases hop : applyMethodRegOp st op with
      | none => simp [runMethodReg, hop]
      | some st2 =>
        simp only [runMethodReg, hop]
        exact ih st2 ⟨op2, hmem2, hasync⟩

/-- C10: registering an asynchronous method or asynchronous function on a
non-static userdata panics unconditionally: whenever `T::add_methods`
makes an `add_async_method` or `add_async_function` call,
`create_nonstatic_userdata` panics (modelled as `none`) instead of
returning a handle or an error. -/
theorem create_nonstatic_userdata_async_panics
    (fieldOps : List FieldRegOp) (methodOps : List MethodRegOp)
    (h : ∃ op ∈ methodOps, op.isAsync = true) :
    create_nonstatic_userdata fieldOps methodOps = none := by
  simp [create_nonstatic_userdata, runMethodReg_async_none methodOps _ h]

/-- Witness for C10: a single `add_async_method` call makes the creation
panic. -/
theorem create_nonstatic_userdata_async_panics_witness :
    create_nonstatic_userdata [] [MethodRegOp.addAsyncMethod "sleep"] = none :=
  create_nonstatic_userdata_async_panics [] [MethodRegOp.addAsyncMethod "sleep"]
    ⟨MethodRegOp.addAsyncMethod "sleep", by simp, rfl⟩

/-- While the writer borrow of the guard cell is held, any execution of the
body produces no `enter` event: every nested invocation of the closure is
rejected by `try_borrow_mut`. -/
theorem runScopedBody_writing_no_enter (P : BodyOp) :
    ∀ (fuel : Nat) (b : BodyOp) (evs : List CallEvent) (r : Except Error Nat),
      runScopedBody P fuel BorrowState.writing b = some (evs, r) →
      evs.count CallEvent.enter = 0 := by
  intro fuel
  induction fuel with
  | zero =>
    intro b evs r h
    cases b with
    | finish v =>
      simp [runScopedBody] at h
      simp [h.1]
    | reinvoke cont => simp [runScopedBody] at h
  | succ fuel ih =>
    intro b evs r h
    cases b with
    | finish v =>
      simp [runScopedBody] at h
      simp [h.1]
    | reinvoke cont =>
      simp only [runScopedBody, try_borrow_mut] at h
      cases hrec : runScopedBody P fuel BorrowState.writing
          (cont (Except.error Error.RecursiveMutCallback)) with
      | none => rw [hrec] at h; exact absurd h (by simp)
      | some pr =>
        rw [hrec] at h
        cases pr with
        | mk evs2 r2 =>
          simp at h
          rw [← h.1]
          simp [List.count_cons, ih _ _ _ hrec]

/-- C5: a mutable closure created through the scope (`create_function_mut`,
or a `FunctionMut` registered on a non-static userdata) is guarded by a
single-writer `RefCell`: a re-entrant invocation made while a prior
invocation is still executing fails with `Error::RecursiveMutCallback`
(the guard cell is not free, so no deadlock and no aliased mutable
borrow), any completed top-level invocation enters the closure body
exactly once, and `function_mut_call` itself yields the recursive-callback
error whenever its guard cell is not free. -/
theorem scoped_mut_reentrancy (P : BodyOp) (fuel : Nat) :
    (∀ cell : BorrowState, cell ≠ BorrowState.free →
      invokeScopedMut P fuel cell
        = some ([CallEvent.reentryRejected], Except.error Error.RecursiveMutCallback))
    ∧ (∀ (evs : List CallEvent) (r : Except Error Nat),
        invokeScopedMut P fuel BorrowState.free = some (evs, r) →
        evs.count CallEvent.enter = 1)
    ∧ (∀ {β : Type} (cell : BorrowState) (f : List Value → Except Error β)
        (args : List Value), cell ≠ BorrowState.free →
        function_mut_call cell f args = Except.error Error.RecursiveMutCallback) := by
  refine ⟨?_, ?_, ?_⟩
  · intro cell hc
    cases cell with
    | free => exact absurd rfl hc
    | reading n => simp [invokeScopedMut, try_borrow_mut]
    | writing => simp [invokeScopedMut, try_borrow_mut]
  · intro evs r h
    simp only [invokeScopedMut, try_borrow_mut] at h
    cases hrec : runScopedBody P fuel BorrowState.writing P with
    | none => rw [hrec] at h; exact absurd h (by simp)
    | some pr =>
      rw [hrec] at h
      cases pr with
      | mk evs2 r2 =>
        simp at h
        rw [← h.1]
        simp [List.count_cons, List.count_append,
          runScopedBody_writing_no_enter P fuel P evs2 r2 hrec]
  · intro β cell f args hc
    cases cell with
    | free => exact absurd rfl hc
    | reading n => simp [function_mut_call, try_borrow_mut]
    | writing => simp [function_mut_call, try_borrow_mut]

/-- Witness for C5: a body that immediately re-invokes its own closure.
The reentrant inner call is rejected with `RecursiveMutCallback` while the
outer call still completes, entering the body exactly once. -/
theorem scoped_mut_reentrancy_witness :
    invokeScopedMut (BodyOp.reinvoke fun _ => BodyOp.finish 7) 1 BorrowState.free
        = some ([CallEvent.enter, CallEvent.reentryRejected, CallEvent.exit], Except.ok 7)
    ∧ ([CallEvent.enter, CallEvent.reentryRejected, CallEvent.exit].count CallEvent.enter = 1)
    ∧ invokeScopedMut (BodyOp.reinvoke fun _ => BodyOp.finish 7) 1 BorrowState.writing
        = some ([CallEvent.reentryRejected], Except.error Error.RecursiveMutCallback) :=
  ⟨rfl,
   (scoped_mut_reentrancy (BodyOp.reinvoke fun _ => BodyOp.finish 7) 1).2.1
     [CallEvent.enter, CallEvent.reentryRejected, CallEvent.exit] (Except.ok 7) rfl,
   (scoped_mut_reentrancy (BodyOp.reinvoke fun _ => BodyOp.finish 7) 1).1
     BorrowState.writing (by decide)⟩

/-- Pass 1 emits exactly one invalidation per registry entry, in insertion
order. -/
theorem pass1_fst (entries : List DestructorEntry) :
    (pass1 entries).1 = entries.map fun e => TEvent.invalidate e.shell := by
  induction entries with
  | nil => rfl
  | cons e rest ih => simp [pass1, ih]

/-- If an appended list splits at an element absent from its left part,
every element of the left part lies in the prefix of the split. -/
theorem mem_split_left {α : Type} (A : List α) :
    ∀ (B l1 l2 : List α) (x : α), A ++ B = l1 ++ x :: l2 → x ∉ A →
      ∀ a ∈ A, a ∈ l1 := by
  induction A with
  | nil => intro B l1 l2 x h hx a ha; exact absurd ha (by simp)
  | cons c A ih =>
    intro B l1 l2 x h hx a ha
    cases l1 with
    | nil =>
      simp at h
      exact absurd (h.1 ▸ List.mem_cons_self c A) hx
    | cons b l1 =>
      simp at h
      rcases List.mem_cons.mp ha with rfl | ha2
      · simp [h.1]
      · exact List.mem_cons_of_mem b
          (ih B l1 l2 x h.2 (fun hm => hx (List.mem_cons_of_mem c hm)) a ha2)

/-- C2: `Scope` teardown runs two strictly ordered passes: pass 1 drains
every registry entry, invalidating its shell and collecting its payloads,
and only then does pass 2 drop any payload.  Consequently, if dropping some
payload panics, the panic event in the teardown trace is preceded by the
invalidation of every registered entry's shell. -/
theorem scope_drop_invalidates_before_panic (panics : Nat → Bool)
    (entries : List DestructorEntry) (l1 l2 : List TEvent) (p : Nat)
    (h : scope_drop panics entries = l1 ++ TEvent.panicDuringDrop p :: l2) :
    ∀ e ∈ entries, TEvent.invalidate e.shell ∈ l1 := by
  intro e he
  rw [scope_drop] at h
  have hx : TEvent.panicDuringDrop p ∉ (pass1 entries).1 := by
    rw [pass1_fst]
    simp
  exact mem_split_left (pass1 entries).1 (pass2 panics (pass1 entries).2) l1 l2
    (TEvent.panicDuringDrop p) h hx (TEvent.invalidate e.shell)
    (by rw [pass1_fst]; exact List.mem_map_of_mem _ he)

/-- Witness for C2: three resources registered in order; dropping the
second resource's payload panics, yet the prefix before the panic already
contains all three invalidations. -/
theorem scope_drop_invalidates_before_panic_witness :
    TEvent.invalidate 1
        ∈ [TEvent.invalidate 1, TEvent.invalidate 2, TEvent.invalidate 3,
           TEvent.dropPayload 10]
    ∧ TEvent.invalidate 2
        ∈ [TEvent.invalidate 1, TEvent.invalidate 2, TEvent.invalidate 3,
           TEvent.dropPayload 10]
    ∧ TEvent.invalidate 3
        ∈ [TEvent.invalidate 1, TEvent.invalidate 2, TEvent.invalidate 3,
           TEvent.dropPayload 10] :=
  ⟨scope_drop_invalidates_before_panic (fun q => q == 20)
      [⟨1, [10]⟩, ⟨2, [20]⟩, ⟨3, [30]⟩]
      [TEvent.invalidate 1, TEvent.invalidate 2, TEvent.invalidate 3,
       TEvent.dropPayload 10] [] 20 rfl ⟨1, [10]⟩ (by simp),
   scope_drop_invalidates_before_panic (fun q => q == 20)
      [⟨1, [10]⟩, ⟨2, [20]⟩, ⟨3, [30]⟩]
      [TEvent.invalidate 1, TEvent.invalidate 2, TEvent.invalidate 3,
       TEvent.dropPayload 10] [] 20 rfl ⟨2, [20]⟩ (by simp),
   scope_drop_invalidates_before_panic (fun q => q == 20)
      [⟨1, [10]⟩, ⟨2, [20]⟩, ⟨3, [30]⟩]
      [TEvent.invalidate 1, TEvent.invalidate 2, TEvent.invalidate 3,
       TEvent.dropPayload 10] [] 20 rfl ⟨3, [30]⟩ (by simp)⟩

/-- Prepending a list free of `b` does not change `allBefore a b`. -/
theorem allBefore_append_of_not_mem {α : Type} [DecidableEq α] (a b : α) (l1 l2 : List α)
    (hb : b ∉ l1) : allBefore a b (l1 ++ l2) = allBefore a b l2 := by
  induction l1 with
  | nil => rfl
  | cons x xs ih =>
    have hxb : ¬x = b := fun hcontra => hb (hcontra ▸ List.mem_cons_self x xs)
    simpa [allBefore, hxb] using ih fun hm => hb (List.mem_cons_of_mem x hm)

/-- A list containing no `a` trivially puts every `a` before every `b`. -/
theorem allBefore_of_not_mem {α : Type} [DecidableEq α] (a b : α) (l : List α)
    (ha : a ∉ l) : allBefore a b l = true := by
  induction l with
  | nil => rfl
  | cons x xs ih =>
    have haxs : a ∉ xs := fun hm => ha (List.mem_cons_of_mem x hm)
    by_cases hxb : x = b
    · simp [allBefore, hxb, haxs]
    · simpa [allBefore, hxb] using ih haxs

/-- Membership in a conditionally present singleton. -/
theorem mem_ite_singleton {α : Type} (x s : α) (c : Prop) [Decidable c] :
    x ∈ (if c then [s] else []) ↔ c ∧ x = s := by
  split <;> rename_i h <;> simp [h]

/-- A conditionally present singleton of a different element contains
nothing of interest. -/
theorem not_mem_ite_singleton {α : Type} (x s : α) (c : Prop) [Decidable c]
    (h : x ≠ s) : x ∉ (if c then [s] else []) := by
  rw [mem_ite_singleton]
  exact fun hc => h hc.2

/-- C3 counterexample: in the build sequence of
`create_nonstatic_userdata` for a representative registration, the
metatable registration (`register_userdata_metatable`) does not precede
the payload write — it happens after the payload is written and the
metatable attached — refuting the claimed
register-before-write-and-attach order. -/
theorem nonstatic_register_not_before_write :
    BuildStep.registerMetatable
        ∈ nonstatic_build_steps ⟨["__add"], ["__index"], ["x"], ["y"], ["m"]⟩
    ∧ BuildStep.writePayload
        ∈ nonstatic_build_steps ⟨["__add"], ["__index"], ["x"], ["y"], ["m"]⟩
    ∧ allBefore BuildStep.registerMetatable BuildStep.writePayload
        (nonstatic_build_steps ⟨["__add"], ["__index"], ["x"], ["y"], ["m"]⟩) = false
    ∧ allBefore BuildStep.attachMetatable BuildStep.registerMetatable
        (nonstatic_build_steps ⟨["__add"], ["__index"], ["x"], ["y"], ["m"]⟩) = true := by
  decide

/-- C3 (amended): `create_nonstatic_userdata` allocates the raw userdata
storage first, fills the metatable with meta-methods before meta-fields,
builds each of the three auxiliary lookup tables only when non-empty, and
writes the payload into the reserved storage before attaching the
metatable; the registration of the metatable identity in the process-wide
descriptor table comes last, after the payload write and the metatable
attach (not before them as originally claimed). -/
theorem nonstatic_build_order (r : UserDataReg) :
    (nonstatic_build_steps r).head? = some BuildStep.allocStorage
    ∧ (∀ km kf, allBefore (BuildStep.setMetaMethod km) (BuildStep.setMetaField kf)
        (nonstatic_build_steps r) = true)
    ∧ (BuildStep.buildFieldGetters ∈ nonstatic_build_steps r ↔ r.fieldGetters ≠ [])
    ∧ (BuildStep.buildFieldSetters ∈ nonstatic_build_steps r ↔ r.fieldSetters ≠ [])
    ∧ (BuildStep.buildMethods ∈ nonstatic_build_steps r ↔ r.methods ≠ [])
    ∧ allBefore BuildStep.writePayload BuildStep.attachMetatable
        (nonstatic_build_steps r) = true
    ∧ allBefore BuildStep.attachMetatable BuildStep.registerMetatable
        (nonstatic_build_steps r) = true
    ∧ allBefore BuildStep.writePayload BuildStep.registerMetatable
        (nonstatic_build_steps r) = true := by
  refine ⟨rfl, ?_, ?_, ?_, ?_, ?_, ?_, ?_⟩
  · intro km kf
    rw [nonstatic_build_steps]
    simp only [List.append_assoc]
    rw [allBefore_append_of_not_mem _ _ _ _ (by simp),
      allBefore_append_of_not_mem _ _ _ _ (by simp)]
    exact allBefore_of_not_mem _ _ _ (by simp [mem_ite_singleton])
  · simp [nonstatic_build_steps, mem_ite_singleton, List.length_pos]
  · simp [nonstatic_build_steps, mem_ite_singleton, List.length_pos]
  · simp [nonstatic_build_steps, mem_ite_singleton, List.length_pos]
  · rw [nonstatic_build_steps]
    simp only [List.append_assoc]
    rw [allBefore_append_of_not_mem _ _ _ _ (by simp),
      allBefore_append_of_not_mem _ _ _ _ (by simp),
      allBefore_append_of_not_mem _ _ _ _ (by simp),
      allBefore_append_of_not_mem _ _ _ _ (not_mem_ite_singleton _ _ _ (by decide)),
      allBefore_append_of_not_mem _ _ _ _ (not_mem_ite_singleton _ _ _ (by decide)),
      allBefore_append_of_not_mem _ _ _ _ (not_mem_ite_singleton _ _ _ (by decide))]
    decide
  · rw [nonstatic_build_steps]
    simp only [List.append_assoc]
    rw [allBefore_append_of_not_mem _ _ _ _ (by simp),
      allBefore_append_of_not_mem _ _ _ _ (by simp),
      allBefore_append_of_not_mem _ _ _ _ (by simp),
      allBefore_append_of_not_mem _ _ _ _ (not_mem_ite_singleton _ _ _ (by decide)),
      allBefore_append_of_not_mem _ _ _ _ (not_mem_ite_singleton _ _ _ (by decide)),
      allBefore_append_of_not_mem _ _ _ _ (not_mem_ite_singleton _ _ _ (by decide))]
    decide
  · rw [nonstatic_build_steps]
    simp only [List.append_assoc]
    rw [allBefore_append_of_not_mem _ _ _ _ (by simp),
      allBefore_append_of_not_mem _ _ _ _ (by simp),
      allBefore_append_of_not_mem _ _ _ _ (by simp),
      allBefore_append_of_not_mem _ _ _ _ (not_mem_ite_singleton _ _ _ (by decide)),
      allBefore_append_of_not_mem _ _ _ _ (not_mem_ite_singleton _ _ _ (by decide)),
      allBefore_append_of_not_mem _ _ _ _ (not_mem_ite_singleton _ _ _ (by decide))]
    decide

/-- Witness for C3's amended ordering at a concrete registration. -/
theorem nonstatic_build_order_witness :
    allBefore (BuildStep.setMetaMethod "__add") (BuildStep.setMetaField "__index")
        (nonstatic_build_steps ⟨["__add"], ["__index"], ["g"], [], []⟩) = true
    ∧ (BuildStep.buildFieldGetters
        ∈ nonstatic_build_steps ⟨["__add"], ["__index"], ["g"], [], []⟩
        ↔ (⟨["__add"], ["__index"], ["g"], [], []⟩ : UserDataReg).fieldGetters ≠ [])
    ∧ allBefore BuildStep.writePayload BuildStep.registerMetatable
        (nonstatic_build_steps ⟨["__add"], ["__index"], ["g"], [], []⟩) = true :=
  ⟨(nonstatic_build_order ⟨["__add"], ["__index"], ["g"], [], []⟩).2.1 "__add" "__index",
   (nonstatic_build_order ⟨["__add"], ["__index"], ["g"], [], []⟩).2.2.1,
   (nonstatic_build_order ⟨["__add"], ["__index"], ["g"], [], []⟩).2.2.2.2.2.2.2⟩

end Mlua
